import Mathlib

/-!
Shallow embedding of the MaxVel speed-limit matching engine
(`src/app/services/speedLimitService.ts`).  The source file contains two
near-duplicate revisions of the service; we embed both, suffixed `V1`
(first revision, lines 1-189) and `V2` (second revision, lines 190-547).

JavaScript numbers are modelled by `ℚ`; the JS value `Infinity` that the
matcher uses as the initial `closestDistance` is modelled by `none` in
`Option ℚ`.  The Turf point-to-line distance computation is an external
library call; it is modelled by an oracle `DistFn` returning `Option ℚ`,
where `none` models the computation throwing (the `try`/`catch` around it
in the scan loop).
-/

/-- The normalized road segment stored by the service
(TS `interface SpeedLimitSegment`). `id` is `string | number`. -/
structure SpeedLimitSegment where
  id : String ⊕ Int
  name : String
  type : String
  speedLimit : ℚ
  geometry : List (ℚ × ℚ)
  properties : List (String × String)
  tags : List (String × String)
  deriving DecidableEq, Repr

/-- `this.DEFAULT_SPEED_LIMIT = 10` (km/h). -/
def DEFAULT_SPEED_LIMIT : ℚ := 10

/-- `this.MAX_DISTANCE_KM = 0.015` (15 meters). -/
def MAX_DISTANCE_KM : ℚ := 15 / 1000

/-- Query point `(longitude, latitude)` as built by `Turf.point([longitude, latitude])`. -/
abbrev QueryPoint := ℚ × ℚ

/-- Oracle for `Turf.pointToLineDistance(point, line, { units: 'kilometers' })`
applied to a segment's geometry; `none` models the call throwing. -/
abbrev DistFn := QueryPoint → SpeedLimitSegment → Option ℚ

/-- JS comparison `d < c` where `c` may be `Infinity` (`none`). -/
def ltInf (d : ℚ) (c : Option ℚ) : Bool :=
  match c with
  | none => true
  | some c => decide (d < c)

/-- JS comparison `c <= m` where `c` may be `Infinity` (`none`);
`Infinity <= m` is false. -/
def leInf (c : Option ℚ) (m : ℚ) : Bool :=
  match c with
  | none => false
  | some c => decide (c ≤ m)

/-- JS comparison `c > m` where `c` may be `Infinity` (`none`);
`Infinity > m` is true. -/
def gtInf (c : Option ℚ) (m : ℚ) : Bool :=
  match c with
  | none => true
  | some c => decide (m < c)

/-- JS `String(id)` for a `string | number` id. -/
def jsIdString : String ⊕ Int → String
  | .inl s => s
  | .inr n => toString n

/-- One iteration of the V1 scan loop (lines 159-170): on a successful
distance computation, update `(closestDistance, closestSegment)` when
`distance < closestDistance`; a throwing computation leaves the
accumulator unchanged (the `catch` only logs). -/
def scanStep (dist : SpeedLimitSegment → Option ℚ)
    (acc : Option ℚ × Option SpeedLimitSegment) (seg : SpeedLimitSegment) :
    Option ℚ × Option SpeedLimitSegment :=
  match dist seg with
  | none => acc
  | some d => if ltInf d acc.1 then (some d, some seg) else acc

/-- The V1 scan loop over the store, starting from
`closestDistance = Infinity`, `closestSegment = null`. -/
def scan (dist : SpeedLimitSegment → Option ℚ) (segs : List SpeedLimitSegment) :
    Option ℚ × Option SpeedLimitSegment :=
  segs.foldl (scanStep dist) (none, none)

/-- Accumulator of the V2 scan loop (lines 470-499): it additionally
tracks `closestSpeedLimit` (initialized to `DEFAULT_SPEED_LIMIT`) and
`closestSegmentId` (initialized to `''`). -/
structure ScanAccV2 where
  closestDistance : Option ℚ
  closestSpeedLimit : ℚ
  closestSegment : Option SpeedLimitSegment
  closestSegmentId : String
  deriving DecidableEq, Repr

/-- One iteration of the V2 scan loop. -/
def scanStepV2 (dist : SpeedLimitSegment → Option ℚ)
    (acc : ScanAccV2) (seg : SpeedLimitSegment) : ScanAccV2 :=
  match dist seg with
  | none => acc
  | some d =>
    if ltInf d acc.closestDistance then
      ⟨some d, seg.speedLimit, some seg, jsIdString seg.id⟩
    else acc

/-- The V2 scan loop over the store. -/
def scanV2 (dist : SpeedLimitSegment → Option ℚ) (segs : List SpeedLimitSegment) :
    ScanAccV2 :=
  segs.foldl (scanStepV2 dist) ⟨none, DEFAULT_SPEED_LIMIT, none, ""⟩

/-- Result of V1 `getSpeedLimitAtLocationWithInfo`
(`{ speedLimit: number | null; segment: ...| null; distance: number }`);
`distance = none` models `Infinity`. -/
structure MatchResultV1 where
  speedLimit : Option ℚ
  segment : Option SpeedLimitSegment
  distance : Option ℚ
  deriving DecidableEq, Repr

/-- Result of V2 `getSpeedLimitAtLocationWithInfo`
(`{ speedLimit: number; segment: ... | null; distance: number }`). -/
structure MatchResultV2 where
  speedLimit : ℚ
  segment : Option SpeedLimitSegment
  distance : Option ℚ
  deriving DecidableEq, Repr

/-- A location sample; `none` models `location` being null or having no
`coords` (the `!location?.coords` check).  The pair is
`(latitude, longitude)` as destructured from `location.coords`. -/
abbrev LocationInput := Option (ℚ × ℚ)

/-- Core of V1 `getSpeedLimitAtLocationWithInfo` (lines 137-181) on an
already-initialized store: invalid location and empty store return
`{null, null, Infinity}`; otherwise the scan runs and the result is
accepted only under `closestSegment && closestDistance <= MAX_DISTANCE_KM`. -/
def lookupV1 (segments : List SpeedLimitSegment) (dist : DistFn) :
    LocationInput → MatchResultV1
  | none => ⟨none, none, none⟩
  | some (lat, lon) =>
    if segments.length = 0 then ⟨none, none, none⟩
    else
      match scan (dist (lon, lat)) segments with
      | (m, some seg) =>
        if leInf m MAX_DISTANCE_KM then ⟨some seg.speedLimit, some seg, m⟩
        else ⟨none, none, m⟩
      | (m, none) => ⟨none, none, m⟩

/-- Core of V2 `getSpeedLimitAtLocationWithInfo` (lines 430-527) on an
already-initialized store: invalid location and empty store return the
default speed limit with `Infinity`; after the scan, a distance above
`MAX_DISTANCE_KM` (including `Infinity`) yields the default. -/
def lookupV2 (segments : List SpeedLimitSegment) (dist : DistFn) :
    LocationInput → MatchResultV2
  | none => ⟨DEFAULT_SPEED_LIMIT, none, none⟩
  | some (lat, lon) =>
    if segments.length = 0 then ⟨DEFAULT_SPEED_LIMIT, none, none⟩
    else
      let a := scanV2 (dist (lon, lat)) segments
      if gtInf a.closestDistance MAX_DISTANCE_KM then
        ⟨DEFAULT_SPEED_LIMIT, none, a.closestDistance⟩
      else
        ⟨a.closestSpeedLimit, a.closestSegment, a.closestDistance⟩

/-!
Raw input records.  The bundled JSON is an array of loosely-typed
records; we model the fields the loaders inspect.  A `none` element of
the input list models a falsy array entry (`if (!s) continue`).
-/

/-- The `speedLimit` field of a raw record: a proper number, the number
`NaN` (`typeof` is `'number'` but `isNaN` holds), a non-number value, or
absent. -/
inductive RawSpeed where
  | num (v : ℚ)
  | nan
  | nonNumber (s : String)
  | absent
  deriving DecidableEq, Repr

/-- The `geometry` field of a raw record: either a flat array of
coordinate pairs (`Array.isArray(geometry)`), or an object with a `type`
tag and an optional `coordinates` array. -/
inductive RawGeometry where
  | arr (coords : List (ℚ × ℚ))
  | obj (gtype : String) (coordinates : Option (List (ℚ × ℚ)))
  deriving DecidableEq, Repr

/-- A raw record of the bundled dataset.  `none` fields model
absent/undefined JS properties. -/
structure RawRecord where
  id : Option (String ⊕ Int)
  name : Option String
  type : Option String
  speedLimit : RawSpeed
  geometry : Option RawGeometry
  properties : Option (List (String × String))
  tags : Option (List (String × String))
  deriving DecidableEq, Repr

/-- JS truthiness of an optional `string | number` id
(`undefined`, `''` and `0` are falsy). -/
def idTruthy : Option (String ⊕ Int) → Bool
  | none => false
  | some (.inl s) => decide (s ≠ "")
  | some (.inr n) => decide (n ≠ 0)

/-- JS `v || dflt` for an optional `string | number` id, with a string
default. -/
def jsIdOr (v : Option (String ⊕ Int)) (dflt : String) : String ⊕ Int :=
  match v with
  | some (.inl s) => if s = "" then .inl dflt else .inl s
  | some (.inr n) => if n = 0 then .inl dflt else .inr n
  | none => .inl dflt

/-- JS `a || b` on optional strings, keeping the option (`''` is falsy). -/
def jsStrOrOpt (a b : Option String) : Option String :=
  match a with
  | some s => if s = "" then b else some s
  | none => b

/-- JS `a || dflt` on an optional string with a string default. -/
def jsStrOr (a : Option String) (dflt : String) : String :=
  match a with
  | some s => if s = "" then dflt else s
  | none => dflt

/-- Property lookup `tags[k]` on a JS object modelled as an association
list. -/
def lookupTag (k : String) (tags : List (String × String)) : Option String :=
  (tags.find? (fun p => p.1 == k)).map (·.2)

/-- `tags?.[k]` on an optional tags object. -/
def lookupTagOpt (k : String) (tags : Option (List (String × String))) : Option String :=
  tags.bind (lookupTag k)

/-- The coordinate list V1 extracts:
`Array.isArray(s.geometry) ? s.geometry : s.geometry.coordinates`. -/
def coordsV1 : RawGeometry → Option (List (ℚ × ℚ))
  | .arr cs => some cs
  | .obj _ cs => cs

/-- V1 loop body condition `typeof s.speedLimit === 'number' && !isNaN(s.speedLimit)`. -/
def hasValidSpeedV1 (s : RawRecord) : Bool :=
  match s.speedLimit with
  | .num _ => true
  | _ => false

/-- V1 `loadBundledData` validation loop (lines 64-84), carrying the
running index `i` used for the `segment-${i}` default id. -/
def loadV1Aux : Nat → List (Option RawRecord) → List SpeedLimitSegment
  | _, [] => []
  | i, none :: rest => loadV1Aux (i + 1) rest
  | i, some s :: rest =>
    match s.geometry with
    | none => loadV1Aux (i + 1) rest
    | some g =>
      match s.speedLimit, coordsV1 g with
      | .num v, some coords =>
        if 2 ≤ coords.length then
          { id := jsIdOr s.id ("segment-" ++ toString i),
            name := jsStrOr (jsStrOrOpt s.name (lookupTagOpt "name" s.tags)) "Unnamed Road",
            type := jsStrOr (jsStrOrOpt s.type (lookupTagOpt "highway" s.tags)) "unclassified",
            speedLimit := v,
            geometry := coords,
            properties := s.properties.getD [],
            tags := s.tags.getD [] } :: loadV1Aux (i + 1) rest
        else loadV1Aux (i + 1) rest
      | _, _ => loadV1Aux (i + 1) rest

/-- V1 `loadBundledData` (lines 54-91): empty input short-circuits to
`[]`; otherwise the validation loop runs.  The surrounding `try`/`catch`
returns `[]` on error and is unreachable in the model. -/
def loadBundledDataV1 (raws : List (Option RawRecord)) : List SpeedLimitSegment :=
  if raws.length = 0 then [] else loadV1Aux 0 raws

/-- Leading run of decimal digits of a character list. -/
def takeDigits : List Char → List Char
  | [] => []
  | c :: cs => if c.isDigit then c :: takeDigits cs else []

/-- First maximal run of decimal digits in a character list
(the capture of the regex `(\d+)`), if any. -/
def firstDigitRun : List Char → Option (List Char)
  | [] => none
  | c :: cs => if c.isDigit then some (c :: takeDigits cs) else firstDigitRun cs

/-- Numeric value of a digit run (JS `parseInt(match[1], 10)`). -/
def digitsToNat (ds : List Char) : Nat :=
  ds.foldl (fun a c => a * 10 + (c.toNat - 48)) 0

/-- V2 `parseSpeedLimit` (lines 217-228): read `maxspeed:forward` or
`maxspeed` from the tags; a missing or falsy value, or a value with no
digits, yields the 10 km/h default; otherwise the first digit run is
parsed.  `parseInt` of a digit run is never `NaN`, so the final `isNaN`
guard is dead and the result is always a natural number. -/
def parseSpeedLimit (tags : Option (List (String × String))) : Nat :=
  match jsStrOrOpt (lookupTagOpt "maxspeed:forward" tags) (lookupTagOpt "maxspeed" tags) with
  | none => 10
  | some sp =>
    if sp = "" then 10
    else
      match firstDigitRun sp.data with
      | none => 10
      | some ds => digitsToNat ds

/-- V2 loop condition `hasValidGeometry` (lines 291-295): the geometry is
present and is either a flat array or a `LineString` object with an
array `coordinates`. -/
def hasValidGeometryV2 : Option RawGeometry → Bool
  | none => false
  | some (.arr _) => true
  | some (.obj t cs) => decide (t = "LineString") && cs.isSome

/-- V2 geometry normalization (lines 312-314):
`Array.isArray(geometry) ? geometry : geometry?.coordinates || []`. -/
def coordsV2 : Option RawGeometry → List (ℚ × ℚ)
  | some (.arr cs) => cs
  | some (.obj _ cs) => cs.getD []
  | none => []

/-- V2's in-place write `segment.speedLimit = this.parseSpeedLimit(segment.tags)`
(lines 297-303): the raw record's `speedLimit` field is overwritten with
the tag-derived value (the `speedLimit === null` branch is dead because
`parseSpeedLimit` is total). -/
def overwriteSpeed (s : RawRecord) : RawRecord :=
  { s with speedLimit := .num (parseSpeedLimit s.tags : ℚ) }

/-- JS `segment.speedLimit || dflt` on a raw speed value
(`0` and `NaN` are falsy, non-numbers are replaced). -/
def jsNumOr (v : RawSpeed) (dflt : ℚ) : ℚ :=
  match v with
  | .num v => if v = 0 then dflt else v
  | _ => dflt

/-- V2 segment normalization (lines 307-317), applied to the
already-mutated record. -/
def normalizeV2 (i : Nat) (s : RawRecord) : SpeedLimitSegment :=
  { id := jsIdOr s.id ("segment-" ++ toString i),
    name := jsStrOr s.name ("Segment " ++ toString i),
    type := jsStrOr s.type "unclassified",
    speedLimit := jsNumOr s.speedLimit 10,
    geometry := coordsV2 s.geometry,
    properties := s.properties.getD [],
    tags := s.tags.getD [] }

/-- V2 `loadBundledData` validation loop (lines 285-345).  It returns
both the accepted normalized segments and the raw array as it stands
after the loop (every present record's `speedLimit` field has been
overwritten in place). -/
def loadV2Aux : Nat → List (Option RawRecord) → List SpeedLimitSegment × List (Option RawRecord)
  | _, [] => ([], [])
  | i, none :: rest =>
    let r := loadV2Aux (i + 1) rest
    (r.1, none :: r.2)
  | i, some s :: rest =>
    let s' := overwriteSpeed s
    let r := loadV2Aux (i + 1) rest
    if hasValidGeometryV2 s'.geometry then
      let n := normalizeV2 i s'
      if 2 ≤ n.geometry.length then (n :: r.1, some s' :: r.2)
      else (r.1, some s' :: r.2)
    else (r.1, some s' :: r.2)

/-- V2 `loadBundledData` (lines 264-360): empty input short-circuits;
an empty valid list is returned as `[]` (the raw array stays mutated). -/
def loadBundledDataV2 (raws : List (Option RawRecord)) :
    List SpeedLimitSegment × List (Option RawRecord) :=
  if raws.length = 0 then ([], raws)
  else
    let r := loadV2Aux 0 raws
    if r.1.length = 0 then ([], r.2) else r

/-- V1 `createDefaultData` (lines 93-130). -/
def createDefaultDataV1 : List SpeedLimitSegment :=
  [ { id := .inl "n1-chidenguele-zandamela",
      name := "N1 - Chidenguele to Zandamela",
      type := "trunk",
      speedLimit := 100,
      geometry := [(34.267, -24.833), (34.277, -24.823)],
      properties := [],
      tags := [("highway", "trunk"), ("ref", "N1")] },
    { id := .inl "chidenguele-urban",
      name := "Chidenguele Urban Area",
      type := "residential",
      speedLimit := 60,
      geometry := [(34.19, -24.98), (34.20, -24.97)],
      properties := [],
      tags := [("highway", "residential")] },
    { id := .inl "zandamela-urban",
      name := "Zandamela Urban Area",
      type := "residential",
      speedLimit := 60,
      geometry := [(34.35, -24.75), (34.36, -24.74)],
      properties := [],
      tags := [("highway", "residential")] } ]

/-- V2 `createDefaultData` (lines 362-423). -/
def createDefaultDataV2 : List SpeedLimitSegment :=
  [ { id := .inl "n1-chidenguele-zandamela",
      name := "N1 - Chidenguele to Zandamela",
      type := "trunk",
      speedLimit := 100,
      geometry := [(34.44, -24.72), (34.45, -24.72), (34.456075, -24.71778),
                   (34.46, -24.71), (34.47, -24.70)],
      properties := [],
      tags := [("highway", "trunk"), ("maxspeed:forward", "100"), ("ref", "N1"),
               ("source", "osm"), ("surface", "asphalt")] },
    { id := .inl "chidenguele-urban",
      name := "Chidenguele Urban Area",
      type := "residential",
      speedLimit := 60,
      geometry := [(34.44, -24.73), (34.445, -24.725), (34.45, -24.72)],
      properties := [],
      tags := [("highway", "residential"), ("maxspeed", "60"),
               ("source", "osm"), ("place", "Chidenguele")] },
    { id := .inl "zandamela-urban",
      name := "Zandamela Urban Area",
      type := "residential",
      speedLimit := 60,
      geometry := [(34.47, -24.71), (34.465, -24.705), (34.46, -24.70)],
      properties := [],
      tags := [("highway", "residential"), ("maxspeed", "60"),
               ("source", "osm"), ("place", "Zandamela")] } ]

/-- The service's mutable fields: `segments` and `isInitialized`. -/
structure ServiceState where
  segments : List SpeedLimitSegment
  isInitialized : Bool
  deriving DecidableEq, Repr

/-- Field initializers `segments = []`, `isInitialized = false`. -/
def initialState : ServiceState := ⟨[], false⟩

/-- V1 `initialize` (lines 27-52): a no-op returning `true` when already
initialized; otherwise loads the bundled data, falling back to the
default data when no valid segments were produced, and sets the flag.
The `catch` fallback (also defaults, returning `false`) is unreachable
in the model since the loader is total. -/
def initializeV1 (st : ServiceState) (raws : List (Option RawRecord)) :
    ServiceState × Bool :=
  if st.isInitialized then (st, true)
  else
    let bundled := loadBundledDataV1 raws
    if 0 < bundled.length then (⟨bundled, true⟩, true)
    else (⟨createDefaultDataV1, true⟩, true)

/-- V2 `initialize` (lines 230-262); same structure, returning `true` on
every path.  The in-place mutation of the raw array performed by the V2
loader is observable through `(loadBundledDataV2 raws).2`. -/
def initializeV2 (st : ServiceState) (raws : List (Option RawRecord)) :
    ServiceState × Bool :=
  if st.isInitialized then (st, true)
  else
    let bundled := (loadBundledDataV2 raws).1
    if 0 < bundled.length then (⟨bundled, true⟩, true)
    else (⟨createDefaultDataV2, true⟩, true)

/-- V1 `getSpeedLimitAtLocationWithInfo` including its lazy
initialization step (lines 140-142). -/
def getSpeedLimitAtLocationWithInfoV1 (st : ServiceState)
    (raws : List (Option RawRecord)) (dist : DistFn) (loc : LocationInput) :
    ServiceState × MatchResultV1 :=
  let st' := if st.isInitialized then st else (initializeV1 st raws).1
  (st', lookupV1 st'.segments dist loc)

/-- V2 `getSpeedLimitAtLocationWithInfo` including its lazy
initialization step (lines 440-443). -/
def getSpeedLimitAtLocationWithInfoV2 (st : ServiceState)
    (raws : List (Option RawRecord)) (dist : DistFn) (loc : LocationInput) :
    ServiceState × MatchResultV2 :=
  let st' := if st.isInitialized then st else (initializeV2 st raws).1
  (st', lookupV2 st'.segments dist loc)

/-!
Characterization of the scan loop: it returns the minimum computed
distance together with the first segment (in store order) attaining it.
-/

/-- Specification-side recursion computing the minimum computed distance
together with the first segment attaining it. -/
def firstMin (dist : SpeedLimitSegment → Option ℚ) :
    List SpeedLimitSegment → Option ℚ × Option SpeedLimitSegment
  | [] => (none, none)
  | s :: rest =>
    match dist s, firstMin dist rest with
    | none, r => r
    | some d, (none, _) => (some d, some s)
    | some d, (some m, sel) => if d ≤ m then (some d, some s) else (some m, sel)

/-- How a scan result over a suffix combines with an accumulator. -/
def scanCombine (acc r : Option ℚ × Option SpeedLimitSegment) :
    Option ℚ × Option SpeedLimitSegment :=
  match r with
  | (none, _) => acc
  | (some d, sel) => if ltInf d acc.1 then (some d, sel) else acc

/-- The speed limit the V2 scan reports for a selected segment
(the default when no segment was ever selected). -/
def speedOfSel : Option SpeedLimitSegment → ℚ
  | none => DEFAULT_SPEED_LIMIT
  | some s => s.speedLimit

/-- The id string the V2 scan reports for a selected segment. -/
def idOfSel : Option SpeedLimitSegment → String
  | none => ""
  | some s => jsIdString s.id

/-- Minimum of a list of rationals, `none` for the empty list. -/
def minList : List ℚ → Option ℚ
  | [] => none
  | d :: ds =>
    match minList ds with
    | none => some d
    | some m => some (min d m)

/-- The overall minimum distance over the store at a query: the minimum
over all successfully computed segment distances (`none` when no
distance was computed). -/
def overallMin (dist : SpeedLimitSegment → Option ℚ)
    (segs : List SpeedLimitSegment) : Option ℚ :=
  minList (segs.filterMap dist)

/-- Concrete segment used in witness instantiations. -/
def segWitnessA : SpeedLimitSegment :=
  ⟨.inl "wA", "Road A", "residential", 60, [(0, 0), (1, 0)], [], []⟩

/-- Second concrete segment used in witness instantiations. -/
def segWitnessB : SpeedLimitSegment :=
  ⟨.inl "wB", "Road B", "residential", 80, [(2, 0), (3, 0)], [], []⟩

/-- A segment whose distance computation will be made to throw in the
C9 witness. -/
def segWitnessBad : SpeedLimitSegment :=
  ⟨.inl "wBad", "Road Bad", "residential", 50, [(5, 5)], [], []⟩

/-- Distance oracle for the C1 witness: 0.01 km to `segWitnessA`,
0.02 km to everything else. -/
def distWitness1 : DistFn := fun _ s =>
  if s.id = Sum.inl "wA" then some (1 / 100) else some (2 / 100)

/-- Distance oracle for the C2 witness: 0.01 km to every segment
(an exact tie). -/
def distWitness2 : DistFn := fun _ _ => some (1 / 100)

/-- Distance oracle for the C9 witness: the computation for
`segWitnessBad` throws; every other segment is 0.01 km away. -/
def distWitness9 : DistFn := fun _ s =>
  if s.id = Sum.inl "wBad" then none else some (1 / 100)

/-- Numeric value of a raw speed field (only meaningful on `.num`). -/
def rawNumValue : RawSpeed → ℚ
  | .num v => v
  | _ => 0

/-- Number of coordinate points of a record after V1 normalization
(`0` when the geometry is absent or yields no coordinate array). -/
def normPointCountV1 (s : RawRecord) : Nat :=
  ((s.geometry.bind coordsV1).getD []).length

/-- Claim-side acceptance predicate for the V1 loader: a resolved
numeric speed limit and at least two normalized coordinate points. -/
def acceptedV1 (s : RawRecord) : Bool :=
  hasValidSpeedV1 s && decide (2 ≤ normPointCountV1 s)

/-- The normalized segment V1 builds for an accepted record at index `i`
(lines 74-82). -/
def normalizeV1 (i : Nat) (s : RawRecord) : SpeedLimitSegment :=
  { id := jsIdOr s.id ("segment-" ++ toString i),
    name := jsStrOr (jsStrOrOpt s.name (lookupTagOpt "name" s.tags)) "Unnamed Road",
    type := jsStrOr (jsStrOrOpt s.type (lookupTagOpt "highway" s.tags)) "unclassified",
    speedLimit := rawNumValue s.speedLimit,
    geometry := (s.geometry.bind coordsV1).getD [],
    properties := s.properties.getD [],
    tags := s.tags.getD [] }

/-- Claim-side acceptance predicate for the V2 loader: a geometry in
one of the two accepted shapes (flat array, or `LineString` object with
a coordinates array) normalizing to at least two points.  The speed
conjunct of the claim is vacuous in V2: `parseSpeedLimit` is total and
always resolves a numeric value. -/
def acceptedV2 (s : RawRecord) : Bool :=
  hasValidGeometryV2 s.geometry && decide (2 ≤ (coordsV2 s.geometry).length)

/-- A fully well-formed raw record as used by the round-trip claim:
truthy id and name, a numeric speed limit, and a flat coordinate-array
geometry with at least two points. -/
def goodRecord (s : RawRecord) : Bool :=
  idTruthy s.id &&
  (match s.name with
   | some n => decide (n ≠ "")
   | none => false) &&
  hasValidSpeedV1 s &&
  (match s.geometry with
   | some (.arr cs) => decide (2 ≤ cs.length)
   | _ => false)

/-- Record used in the C3 counterexample: a fully valid record whose
`speedLimit` field is 80 but whose tags carry no maxspeed. -/
def recCexC3 : RawRecord :=
  ⟨some (.inl "r3"), some "Main St", some "residential", .num 80,
    some (.arr [(0, 0), (1, 1)]), none, none⟩

/-- Record used in the C3 witness: a fully valid record whose tags
resolve to the same speed limit as its `speedLimit` field. -/
def recWitnessC3 : RawRecord :=
  ⟨some (.inl "w3"), some "W3 Road", some "residential", .num 70,
    some (.arr [(0, 0), (1, 1)]), none, some [("maxspeed", "70")]⟩

/-- Record used in the C6 counterexample: valid for the V1 loader but
with a negative numeric `speedLimit`. -/
def recCexC6 : RawRecord :=
  ⟨some (.inl "r6"), some "Back St", some "residential", .num (-5),
    some (.arr [(0, 0), (1, 0)]), none, none⟩

/-- Record used in the C6 witness. -/
def recWitnessC6 : RawRecord :=
  ⟨some (.inl "w6"), some "W6 Road", some "residential", .num 60,
    some (.arr [(0, 0), (1, 0)]), none, some [("maxspeed", "60")]⟩

/-- Record used in the C10 counterexample: its `speedLimit` field is 50
but its tags carry no maxspeed. -/
def recCexC10 : RawRecord :=
  ⟨some (.inl "r10"), some "Side St", some "residential", .num 50,
    some (.arr [(0, 0), (1, 0)]), none, none⟩

/-- The round-trip relation the C3 claim asserts between an input
record and its stored V1 segment. -/
def roundTripV1 (s : RawRecord) (seg : SpeedLimitSegment) : Prop :=
  s.id = some seg.id ∧ s.name = some seg.name ∧
  s.speedLimit = RawSpeed.num seg.speedLimit ∧
  s.geometry = some (RawGeometry.arr seg.geometry)

/-- The relation actually established by the V2 loader: id, name and
geometry round-trip, but the stored speed limit is re-resolved from the
record's tags (`0` coerced to `10`). -/
def roundTripV2 (s : RawRecord) (seg : SpeedLimitSegment) : Prop :=
  s.id = some seg.id ∧ s.name = some seg.name ∧
  seg.speedLimit = (if (parseSpeedLimit s.tags : ℚ) = 0 then 10
    else (parseSpeedLimit s.tags : ℚ)) ∧
  s.geometry = some (RawGeometry.arr seg.geometry)

/-! ### Theorems -/

theorem foldl_scanStep_eq (dist : SpeedLimitSegment → Option ℚ)
    (segs : List SpeedLimitSegment) :
    ∀ acc : Option ℚ × Option SpeedLimitSegment,
      List.foldl (scanStep dist) acc segs = scanCombine acc (firstMin dist segs) := by
  induction segs with
  | nil => intro acc; rfl
  | cons s rest ih =>
    intro acc
    rw [List.foldl_cons, ih]
    rcases acc with ⟨a, asel⟩
    rcases hfm : firstMin dist rest with ⟨m, sel⟩
    cases hds : dist s with
    | none => simp [firstMin, hds, hfm, scanStep]
    | some d =>
      cases m with
      | none =>
        cases a with
        | none => simp [firstMin, hds, hfm, scanStep, scanCombine, ltInf]
        | some av =>
          by_cases h : d < av <;>
            simp [firstMin, hds, hfm, scanStep, scanCombine, ltInf, h]
      | some mv =>
        by_cases hdm : d ≤ mv
        · cases a with
          | none =>
            simp [firstMin, hds, hfm, scanStep, scanCombine, ltInf, hdm, not_lt.mpr hdm]
          | some av =>
            by_cases h : d < av
            · simp [firstMin, hds, hfm, scanStep, scanCombine, ltInf, hdm, h,
                not_lt.mpr hdm]
            · have hmv : ¬ mv < av := by
                intro hc; exact h (lt_of_le_of_lt hdm hc)
              simp [firstMin, hds, hfm, scanStep, scanCombine, ltInf, hdm, h, hmv]
        · have hmd : mv < d := not_le.mp hdm
          cases a with
          | none =>
            simp [firstMin, hds, hfm, scanStep, scanCombine, ltInf, hdm, hmd]
          | some av =>
            by_cases h : d < av
            · have hmv : mv < av := lt_trans hmd h
              simp [firstMin, hds, hfm, scanStep, scanCombine, ltInf, hdm, hmd, h, hmv]
            · simp [firstMin, hds, hfm, scanStep, scanCombine, ltInf, hdm, h]

theorem firstMin_fst_none (dist : SpeedLimitSegment → Option ℚ) :
    ∀ segs : List SpeedLimitSegment,
      (firstMin dist segs).1 = none → (firstMin dist segs).2 = none := by
  intro segs
  induction segs with
  | nil => simp [firstMin]
  | cons s rest ih =>
    cases hds : dist s with
    | none =>
      intro h
      simp only [firstMin, hds] at h ⊢
      exact ih h
    | some d =>
      rcases hfm : firstMin dist rest with ⟨m, sel⟩
      cases m with
      | none => simp [firstMin, hds, hfm]
      | some mv =>
        simp only [firstMin, hds, hfm]
        split_ifs <;> simp

/-- The V1 scan loop computes the minimum distance and the first segment
attaining it. -/
theorem scan_eq_firstMin (dist : SpeedLimitSegment → Option ℚ)
    (segs : List SpeedLimitSegment) : scan dist segs = firstMin dist segs := by
  rw [scan, foldl_scanStep_eq]
  rcases h : firstMin dist segs with ⟨m, sel⟩
  cases m with
  | none =>
    have h2 := firstMin_fst_none dist segs
    rw [h] at h2
    have h3 : sel = none := h2 rfl
    subst h3
    simp [scanCombine]
  | some d => simp [scanCombine, ltInf]

theorem foldl_scanStepV2_eq (dist : SpeedLimitSegment → Option ℚ)
    (segs : List SpeedLimitSegment) :
    ∀ (a : Option ℚ) (sel : Option SpeedLimitSegment),
      List.foldl (scanStepV2 dist) ⟨a, speedOfSel sel, sel, idOfSel sel⟩ segs =
        ⟨(List.foldl (scanStep dist) (a, sel) segs).1,
         speedOfSel (List.foldl (scanStep dist) (a, sel) segs).2,
         (List.foldl (scanStep dist) (a, sel) segs).2,
         idOfSel (List.foldl (scanStep dist) (a, sel) segs).2⟩ := by
  induction segs with
  | nil => intro a sel; rfl
  | cons s rest ih =>
    intro a sel
    rw [List.foldl_cons, List.foldl_cons]
    cases hds : dist s with
    | none =>
      simp only [scanStepV2, scanStep, hds]
      exact ih a sel
    | some d =>
      by_cases h : ltInf d a
      · simp only [scanStepV2, scanStep, hds, h, if_pos]
        exact ih (some d) (some s)
      · simp only [scanStepV2, scanStep, hds, h, if_neg, Bool.false_eq_true,
          if_false]
        exact ih a sel

/-- The V2 scan agrees with the V1 scan, carrying along the selected
segment's speed limit and id. -/
theorem scanV2_eq (dist : SpeedLimitSegment → Option ℚ)
    (segs : List SpeedLimitSegment) :
    scanV2 dist segs = ⟨(scan dist segs).1, speedOfSel (scan dist segs).2,
      (scan dist segs).2, idOfSel (scan dist segs).2⟩ :=
  foldl_scanStepV2_eq dist segs none none

theorem firstMin_fst_eq_overallMin (dist : SpeedLimitSegment → Option ℚ) :
    ∀ segs : List SpeedLimitSegment,
      (firstMin dist segs).1 = overallMin dist segs := by
  intro segs
  induction segs with
  | nil => rfl
  | cons s rest ih =>
    cases hds : dist s with
    | none =>
      simp only [firstMin, hds, overallMin, List.filterMap_cons]
      exact ih
    | some d =>
      rcases hfm : firstMin dist rest with ⟨m, sel⟩
      rw [hfm] at ih
      simp only [firstMin, hds, hfm, overallMin, List.filterMap_cons]
      cases m with
      | none =>
        simp only [overallMin] at ih
        simp [minList, ← ih]
      | some mv =>
        simp only [overallMin] at ih
        simp only [minList, ← ih]
        by_cases hdm : d ≤ mv
        · simp [hdm, min_eq_left hdm]
        · simp [hdm, min_eq_right (le_of_not_le hdm)]

theorem minList_eq_none_iff (l : List ℚ) : minList l = none ↔ l = [] := by
  cases l with
  | nil => simp [minList]
  | cons d ds =>
    simp only [minList]
    cases h : minList ds <;> simp

theorem overallMin_eq_none_iff (dist : SpeedLimitSegment → Option ℚ)
    (segs : List SpeedLimitSegment) :
    overallMin dist segs = none ↔ ∀ s ∈ segs, dist s = none := by
  rw [overallMin, minList_eq_none_iff, List.filterMap_eq_nil_iff]

theorem firstMin_spec (dist : SpeedLimitSegment → Option ℚ) :
    ∀ segs : List SpeedLimitSegment,
      (firstMin dist segs = (none, none) ∧ ∀ s ∈ segs, dist s = none) ∨
      (∃ mv s xs ys, firstMin dist segs = (some mv, some s) ∧
        segs = xs ++ s :: ys ∧ dist s = some mv ∧
        (∀ t ∈ xs, ∀ dt, dist t = some dt → mv < dt) ∧
        (∀ t ∈ segs, ∀ dt, dist t = some dt → mv ≤ dt)) := by
  intro segs
  induction segs with
  | nil => left; simp [firstMin]
  | cons s rest ih =>
    cases hds : dist s with
    | none =>
      rcases ih with ⟨h1, h2⟩ | ⟨mv, s0, xs, ys, h1, h2, h3, h4, h5⟩
      · left
        refine ⟨by simp [firstMin, hds, h1], ?_⟩
        intro t ht
        rcases List.mem_cons.mp ht with rfl | ht
        · exact hds
        · exact h2 t ht
      · right
        refine ⟨mv, s0, s :: xs, ys, by simp [firstMin, hds, h1], by simp [h2], h3, ?_, ?_⟩
        · intro t ht dt hdt
          rcases List.mem_cons.mp ht with rfl | ht
          · rw [hds] at hdt; exact absurd hdt (by simp)
          · exact h4 t ht dt hdt
        · intro t ht dt hdt
          rcases List.mem_cons.mp ht with rfl | ht
          · rw [hds] at hdt; exact absurd hdt (by simp)
          · exact h5 t (h2 ▸ ht) dt hdt
    | some d =>
      rcases ih with ⟨h1, h2⟩ | ⟨mv, s0, xs, ys, h1, h2, h3, h4, h5⟩
      · right
        refine ⟨d, s, [], rest, by simp [firstMin, hds, h1], by simp, hds, by simp, ?_⟩
        intro t ht dt hdt
        rcases List.mem_cons.mp ht with rfl | ht
        · rw [hds] at hdt
          exact le_of_eq (Option.some.inj hdt)
        · rw [h2 t ht] at hdt; exact absurd hdt (by simp)
      · by_cases hdm : d ≤ mv
        · right
          refine ⟨d, s, [], rest, by simp [firstMin, hds, h1, hdm], by simp, hds, by simp, ?_⟩
          intro t ht dt hdt
          rcases List.mem_cons.mp ht with rfl | ht
          · rw [hds] at hdt
            exact le_of_eq (Option.some.inj hdt)
          · exact le_trans hdm (h5 t (h2 ▸ ht) dt hdt)
        · have hmd : mv < d := not_le.mp hdm
          right
          refine ⟨mv, s0, s :: xs, ys, by simp [firstMin, hds, h1, hdm], by simp [h2], h3, ?_, ?_⟩
          · intro t ht dt hdt
            rcases List.mem_cons.mp ht with rfl | ht
            · rw [hds] at hdt
              rw [(Option.some.inj hdt)] at hmd
              exact hmd
            · exact h4 t ht dt hdt
          · intro t ht dt hdt
            rcases List.mem_cons.mp ht with rfl | ht
            · rw [hds] at hdt
              rw [(Option.some.inj hdt)] at hmd
              exact le_of_lt hmd
            · exact h5 t (h2 ▸ ht) dt hdt

theorem lookupV1_of_firstMin_none (segs : List SpeedLimitSegment) (dist : DistFn)
    (lat lon : ℚ) (h : firstMin (dist (lon, lat)) segs = (none, none)) :
    lookupV1 segs dist (some (lat, lon)) = ⟨none, none, none⟩ := by
  simp only [lookupV1]
  rw [scan_eq_firstMin, h]
  by_cases hl : segs.length = 0 <;> simp [hl]

theorem lookupV1_of_firstMin_some (segs : List SpeedLimitSegment) (dist : DistFn)
    (lat lon mv : ℚ) (s : SpeedLimitSegment)
    (h : firstMin (dist (lon, lat)) segs = (some mv, some s)) :
    lookupV1 segs dist (some (lat, lon)) =
      if mv ≤ MAX_DISTANCE_KM then ⟨some s.speedLimit, some s, some mv⟩
      else ⟨none, none, some mv⟩ := by
  have hne : ¬ segs.length = 0 := by
    intro hl
    rw [List.length_eq_zero.mp hl] at h
    simp [firstMin] at h
  simp only [lookupV1]
  rw [scan_eq_firstMin, h]
  simp only [hne, if_false, leInf]
  by_cases hm : mv ≤ MAX_DISTANCE_KM <;> simp [hm]

theorem lookupV2_of_firstMin_none (segs : List SpeedLimitSegment) (dist : DistFn)
    (lat lon : ℚ) (h : firstMin (dist (lon, lat)) segs = (none, none)) :
    lookupV2 segs dist (some (lat, lon)) = ⟨DEFAULT_SPEED_LIMIT, none, none⟩ := by
  simp only [lookupV2]
  rw [scanV2_eq, scan_eq_firstMin, h]
  by_cases hl : segs.length = 0 <;> simp [hl, gtInf, speedOfSel, idOfSel]

theorem lookupV2_of_firstMin_some (segs : List SpeedLimitSegment) (dist : DistFn)
    (lat lon mv : ℚ) (s : SpeedLimitSegment)
    (h : firstMin (dist (lon, lat)) segs = (some mv, some s)) :
    lookupV2 segs dist (some (lat, lon)) =
      if MAX_DISTANCE_KM < mv then ⟨DEFAULT_SPEED_LIMIT, none, some mv⟩
      else ⟨s.speedLimit, some s, some mv⟩ := by
  have hne : ¬ segs.length = 0 := by
    intro hl
    rw [List.length_eq_zero.mp hl] at h
    simp [firstMin] at h
  simp only [lookupV2]
  rw [scanV2_eq, scan_eq_firstMin, h]
  simp only [hne, if_false, gtInf, speedOfSel, idOfSel]
  by_cases hm : MAX_DISTANCE_KM < mv <;> simp [hm]

theorem firstMin_cons (dist : SpeedLimitSegment → Option ℚ) (x : SpeedLimitSegment)
    (l : List SpeedLimitSegment) :
    firstMin dist (x :: l) =
      match dist x, firstMin dist l with
      | none, r => r
      | some d, (none, _) => (some d, some x)
      | some d, (some m, sel) => if d ≤ m then (some d, some x) else (some m, sel) := rfl

theorem firstMin_skip (dist : SpeedLimitSegment → Option ℚ) (b : SpeedLimitSegment)
    (hb : dist b = none) (ys : List SpeedLimitSegment) :
    ∀ xs, firstMin dist (xs ++ b :: ys) = firstMin dist (xs ++ ys) := by
  intro xs
  induction xs with
  | nil => simp [firstMin, hb]
  | cons x xs ih =>
    rw [List.cons_append, List.cons_append, firstMin_cons, firstMin_cons, ih]

theorem lookupV1_congr_firstMin (segs segs' : List SpeedLimitSegment) (dist : DistFn)
    (lat lon : ℚ)
    (h : firstMin (dist (lon, lat)) segs = firstMin (dist (lon, lat)) segs') :
    lookupV1 segs dist (some (lat, lon)) = lookupV1 segs' dist (some (lat, lon)) := by
  rcases firstMin_spec (dist (lon, lat)) segs with ⟨h1, _⟩ | ⟨mv, s, xs, ys, h1, _, _, _, _⟩
  · have h1' : firstMin (dist (lon, lat)) segs' = (none, none) := by rw [← h]; exact h1
    rw [lookupV1_of_firstMin_none _ _ _ _ h1, lookupV1_of_firstMin_none _ _ _ _ h1']
  · have h1' : firstMin (dist (lon, lat)) segs' = (some mv, some s) := by rw [← h]; exact h1
    rw [lookupV1_of_firstMin_some _ _ _ _ _ _ h1, lookupV1_of_firstMin_some _ _ _ _ _ _ h1']

theorem lookupV2_congr_firstMin (segs segs' : List SpeedLimitSegment) (dist : DistFn)
    (lat lon : ℚ)
    (h : firstMin (dist (lon, lat)) segs = firstMin (dist (lon, lat)) segs') :
    lookupV2 segs dist (some (lat, lon)) = lookupV2 segs' dist (some (lat, lon)) := by
  rcases firstMin_spec (dist (lon, lat)) segs with ⟨h1, _⟩ | ⟨mv, s, xs, ys, h1, _, _, _, _⟩
  · have h1' : firstMin (dist (lon, lat)) segs' = (none, none) := by rw [← h]; exact h1
    rw [lookupV2_of_firstMin_none _ _ _ _ h1, lookupV2_of_firstMin_none _ _ _ _ h1']
  · have h1' : firstMin (dist (lon, lat)) segs' = (some mv, some s) := by rw [← h]; exact h1
    rw [lookupV2_of_firstMin_some _ _ _ _ _ _ h1, lookupV2_of_firstMin_some _ _ _ _ _ _ h1']

/-- Claim C1: for every initialized store and query point with valid
coordinates, both revisions of the lookup return the overall minimum
computed distance as the result distance; when that minimum is within
the acceptance threshold `MAX_DISTANCE_KM` the closest segment and its
speed limit are returned; otherwise a no-match result is returned (the
`null` sentinel in V1, the `DEFAULT_SPEED_LIMIT` in V2) carrying the
rejected minimum distance.  The distance is finite (`some`) exactly
when at least one segment's distance computation succeeded, and
infinite (`none`, modelling `Infinity`) when no segments exist. -/
theorem claim_C1_lookup_threshold (segs : List SpeedLimitSegment) (dist : DistFn)
    (lat lon : ℚ) :
    ((lookupV1 segs dist (some (lat, lon))).distance = overallMin (dist (lon, lat)) segs) ∧
    ((lookupV2 segs dist (some (lat, lon))).distance = overallMin (dist (lon, lat)) segs) ∧
    (overallMin (dist (lon, lat)) segs = none ↔ ∀ s ∈ segs, dist (lon, lat) s = none) ∧
    (∀ mv, overallMin (dist (lon, lat)) segs = some mv →
      (mv ≤ MAX_DISTANCE_KM →
        ∃ s, s ∈ segs ∧ dist (lon, lat) s = some mv ∧
          (∀ t ∈ segs, ∀ dt, dist (lon, lat) t = some dt → mv ≤ dt) ∧
          lookupV1 segs dist (some (lat, lon)) = ⟨some s.speedLimit, some s, some mv⟩ ∧
          lookupV2 segs dist (some (lat, lon)) = ⟨s.speedLimit, some s, some mv⟩) ∧
      (MAX_DISTANCE_KM < mv →
        lookupV1 segs dist (some (lat, lon)) = ⟨none, none, some mv⟩ ∧
        lookupV2 segs dist (some (lat, lon)) = ⟨DEFAULT_SPEED_LIMIT, none, some mv⟩)) ∧
    (segs = [] →
      lookupV1 segs dist (some (lat, lon)) = ⟨none, none, none⟩ ∧
      lookupV2 segs dist (some (lat, lon)) = ⟨DEFAULT_SPEED_LIMIT, none, none⟩) := by
  rcases firstMin_spec (dist (lon, lat)) segs with ⟨h1, h2⟩ |
    ⟨mv, s, xs, ys, h1, hsplit, hdist, hfirst, hmin⟩
  · have hov : overallMin (dist (lon, lat)) segs = none := by
      rw [← firstMin_fst_eq_overallMin, h1]
    have e1 := lookupV1_of_firstMin_none segs dist lat lon h1
    have e2 := lookupV2_of_firstMin_none segs dist lat lon h1
    refine ⟨by simp [e1, hov], by simp [e2, hov], overallMin_eq_none_iff _ _, ?_, ?_⟩
    · intro mv hmv
      rw [hov] at hmv
      exact absurd hmv (by simp)
    · intro hemp
      subst hemp
      exact ⟨rfl, rfl⟩
  · have hov : overallMin (dist (lon, lat)) segs = some mv := by
      rw [← firstMin_fst_eq_overallMin, h1]
    have hmem : s ∈ segs := by
      rw [hsplit]
      exact List.mem_append_right _ (List.mem_cons_self _ _)
    have e1 := lookupV1_of_firstMin_some segs dist lat lon mv s h1
    have e2 := lookupV2_of_firstMin_some segs dist lat lon mv s h1
    refine ⟨by rw [e1]; split_ifs <;> simp [hov], by rw [e2]; split_ifs <;> simp [hov],
      overallMin_eq_none_iff _ _, ?_, ?_⟩
    · intro mv' hmv'
      rw [hov] at hmv'
      have hmveq := Option.some.inj hmv'
      subst hmveq
      refine ⟨fun hle => ⟨s, hmem, hdist, hmin, ?_, ?_⟩, fun hgt => ⟨?_, ?_⟩⟩
      · rw [e1, if_pos hle]
      · rw [e2, if_neg (not_lt.mpr hle)]
      · rw [e1, if_neg (not_le.mpr hgt)]
      · rw [e2, if_pos hgt]
    · intro hemp
      rw [hemp] at hsplit
      exact absurd hsplit (by simp)

/-- Witness for C1: a two-segment store at distances 0.01 km and
0.02 km with the 0.015 km threshold returns the closer segment with its
speed limit and distance, in both revisions. -/
theorem claim_C1_lookup_threshold_witness :
    ∃ s, s ∈ [segWitnessA, segWitnessB] ∧
      distWitness1 (0, 0) s = some (1 / 100) ∧
      (∀ t ∈ [segWitnessA, segWitnessB], ∀ dt,
        distWitness1 (0, 0) t = some dt → 1 / 100 ≤ dt) ∧
      lookupV1 [segWitnessA, segWitnessB] distWitness1 (some (0, 0)) =
        ⟨some s.speedLimit, some s, some (1 / 100)⟩ ∧
      lookupV2 [segWitnessA, segWitnessB] distWitness1 (some (0, 0)) =
        ⟨s.speedLimit, some s, some (1 / 100)⟩ :=
  ((claim_C1_lookup_threshold [segWitnessA, segWitnessB] distWitness1 0 0).2.2.2.1
    (1 / 100) (by simp [overallMin, minList, distWitness1, segWitnessA, segWitnessB]
                  norm_num [min_def])).1
    (by norm_num [MAX_DISTANCE_KM])

/-- Claim C2: the matcher scans the store in insertion order with a
strict less-than comparison, so whenever a segment is returned it is
the first segment (in store order) attaining the minimum distance:
every earlier segment either failed its distance computation or lies
strictly farther away, and no segment lies strictly closer.  Both
revisions select the same segment; in particular, of two segments at
equal distance the one appearing earlier in the store wins. -/
theorem claim_C2_insertion_order_ties (segs : List SpeedLimitSegment) (dist : DistFn)
    (lat lon : ℚ) (s : SpeedLimitSegment)
    (h : (lookupV1 segs dist (some (lat, lon))).segment = some s) :
    ∃ xs ys mv, segs = xs ++ s :: ys ∧ dist (lon, lat) s = some mv ∧
      (∀ t ∈ xs, ∀ dt, dist (lon, lat) t = some dt → mv < dt) ∧
      (∀ t ∈ segs, ∀ dt, dist (lon, lat) t = some dt → mv ≤ dt) ∧
      (lookupV2 segs dist (some (lat, lon))).segment = some s := by
  rcases firstMin_spec (dist (lon, lat)) segs with ⟨h1, _⟩ |
    ⟨mv, s0, xs, ys, h1, hsplit, hdist, hfirst, hmin⟩
  · rw [lookupV1_of_firstMin_none segs dist lat lon h1] at h
    exact absurd h (by simp)
  · rw [lookupV1_of_firstMin_some segs dist lat lon mv s0 h1] at h
    by_cases hle : mv ≤ MAX_DISTANCE_KM
    · rw [if_pos hle] at h
      have hs : s0 = s := by simpa using h
      subst hs
      refine ⟨xs, ys, mv, hsplit, hdist, hfirst, ?_, ?_⟩
      · intro t ht dt hdt
        exact hmin t (hsplit ▸ ht) dt hdt
      · rw [lookupV2_of_firstMin_some segs dist lat lon mv s0 h1,
          if_neg (not_lt.mpr hle)]
    · rw [if_neg hle] at h
      exact absurd h (by simp)

/-- Witness for C2: two segments at the same 0.01 km distance; the
lookup returns the one appearing earlier in the store, in both
revisions. -/
theorem claim_C2_insertion_order_ties_witness :
    ∃ xs ys mv,
      ([segWitnessA, segWitnessB] : List SpeedLimitSegment) = xs ++ segWitnessA :: ys ∧
      distWitness2 (0, 0) segWitnessA = some mv ∧
      (∀ t ∈ xs, ∀ dt, distWitness2 (0, 0) t = some dt → mv < dt) ∧
      (∀ t ∈ [segWitnessA, segWitnessB], ∀ dt, distWitness2 (0, 0) t = some dt → mv ≤ dt) ∧
      (lookupV2 [segWitnessA, segWitnessB] distWitness2 (some (0, 0))).segment =
        some segWitnessA :=
  claim_C2_insertion_order_ties [segWitnessA, segWitnessB] distWitness2 0 0 segWitnessA
    (by simp [lookupV1, scan, scanStep, ltInf, leInf, distWitness2, segWitnessA,
          segWitnessB, MAX_DISTANCE_KM]
        norm_num)

/-- Claim C8: an invalid location object (missing coordinates) makes
the lookup return a no-match result with infinite distance, in both
revisions, for the core lookup and for the full operation including
lazy initialization; no error is propagated. -/
theorem claim_C8_invalid_location (segs : List SpeedLimitSegment) (dist : DistFn)
    (st : ServiceState) (raws : List (Option RawRecord)) :
    lookupV1 segs dist none = ⟨none, none, none⟩ ∧
    lookupV2 segs dist none = ⟨DEFAULT_SPEED_LIMIT, none, none⟩ ∧
    (getSpeedLimitAtLocationWithInfoV1 st raws dist none).2 = ⟨none, none, none⟩ ∧
    (getSpeedLimitAtLocationWithInfoV2 st raws dist none).2 =
      ⟨DEFAULT_SPEED_LIMIT, none, none⟩ :=
  ⟨rfl, rfl, rfl, rfl⟩

/-- Claim C9: the lookup is total and well-formed — a segment whose
distance computation throws is skipped without aborting the scan (the
result over a store containing it equals the result over the store
without it), and every lookup result is either a within-threshold match
carrying a store segment's speed limit, or the documented no-match
default (`null` in V1, `DEFAULT_SPEED_LIMIT` in V2). -/
theorem claim_C9_failed_segment_skipped (xs ys : List SpeedLimitSegment)
    (b : SpeedLimitSegment) (dist : DistFn) (loc : LocationInput)
    (hb : ∀ p : QueryPoint, dist p b = none) :
    lookupV1 (xs ++ b :: ys) dist loc = lookupV1 (xs ++ ys) dist loc ∧
    lookupV2 (xs ++ b :: ys) dist loc = lookupV2 (xs ++ ys) dist loc ∧
    (∀ segs : List SpeedLimitSegment, ∀ l : LocationInput,
      (∃ s mv, s ∈ segs ∧ mv ≤ MAX_DISTANCE_KM ∧
        lookupV1 segs dist l = ⟨some s.speedLimit, some s, some mv⟩ ∧
        lookupV2 segs dist l = ⟨s.speedLimit, some s, some mv⟩) ∨
      ((lookupV1 segs dist l).speedLimit = none ∧
       (lookupV1 segs dist l).segment = none ∧
       (lookupV2 segs dist l).speedLimit = DEFAULT_SPEED_LIMIT ∧
       (lookupV2 segs dist l).segment = none)) := by
  refine ⟨?_, ?_, ?_⟩
  · cases loc with
    | none => rfl
    | some p =>
      rcases p with ⟨lat, lon⟩
      exact lookupV1_congr_firstMin _ _ dist lat lon (firstMin_skip _ b (hb _) ys xs)
  · cases loc with
    | none => rfl
    | some p =>
      rcases p with ⟨lat, lon⟩
      exact lookupV2_congr_firstMin _ _ dist lat lon (firstMin_skip _ b (hb _) ys xs)
  · intro segs l
    cases l with
    | none => exact Or.inr ⟨rfl, rfl, rfl, rfl⟩
    | some p =>
      rcases p with ⟨lat, lon⟩
      rcases firstMin_spec (dist (lon, lat)) segs with ⟨h1, _⟩ |
        ⟨mv, s, xs2, ys2, h1, hsplit, _, _, _⟩
      · right
        rw [lookupV1_of_firstMin_none _ _ _ _ h1, lookupV2_of_firstMin_none _ _ _ _ h1]
        exact ⟨rfl, rfl, rfl, rfl⟩
      · by_cases hle : mv ≤ MAX_DISTANCE_KM
        · left
          refine ⟨s, mv, ?_, hle, ?_, ?_⟩
          · rw [hsplit]
            exact List.mem_append_right _ (List.mem_cons_self _ _)
          · rw [lookupV1_of_firstMin_some _ _ _ _ _ _ h1, if_pos hle]
          · rw [lookupV2_of_firstMin_some _ _ _ _ _ _ h1, if_neg (not_lt.mpr hle)]
        · right
          rw [lookupV1_of_firstMin_some _ _ _ _ _ _ h1, if_neg hle,
            lookupV2_of_firstMin_some _ _ _ _ _ _ h1, if_pos (not_le.mp hle)]
          exact ⟨rfl, rfl, rfl, rfl⟩

/-- Witness for C9: a store containing a segment whose distance
computation throws yields the same result as the store without it. -/
theorem claim_C9_failed_segment_skipped_witness :
    lookupV1 [segWitnessA, segWitnessBad] distWitness9 (some (0, 0)) =
      lookupV1 [segWitnessA] distWitness9 (some (0, 0)) ∧
    lookupV2 [segWitnessA, segWitnessBad] distWitness9 (some (0, 0)) =
      lookupV2 [segWitnessA] distWitness9 (some (0, 0)) := by
  have h := claim_C9_failed_segment_skipped [segWitnessA] [] segWitnessBad distWitness9
    (some (0, 0)) (fun p => by simp [distWitness9, segWitnessBad])
  exact ⟨h.1, h.2.1⟩

theorem loadV1Aux_eq_filterMap (raws : List (Option RawRecord)) :
    ∀ i, loadV1Aux i raws = (List.enumFrom i raws).filterMap
      (fun p => p.2.bind fun s =>
        if acceptedV1 s then some (normalizeV1 p.1 s) else none) := by
  induction raws with
  | nil => intro i; rfl
  | cons o rest ih =>
    intro i
    cases o with
    | none => simp [loadV1Aux, List.enumFrom, List.filterMap_cons, ih]
    | some s =>
      rw [List.enumFrom]
      cases hg : s.geometry with
      | none =>
        have hacc : acceptedV1 s = false := by
          simp [acceptedV1, normPointCountV1, hg]
        simp [loadV1Aux, hg, List.filterMap_cons, hacc, ih]
      | some g =>
        cases hsp : s.speedLimit with
        | num v =>
          cases hc : coordsV1 g with
          | none =>
            have hacc : acceptedV1 s = false := by
              simp [acceptedV1, normPointCountV1, hg, hc]
            simp [loadV1Aux, hg, hsp, hc, List.filterMap_cons, hacc, ih]
          | some coords =>
            by_cases hlen : 2 ≤ coords.length
            · have hacc : acceptedV1 s = true := by
                simp [acceptedV1, hasValidSpeedV1, hsp, normPointCountV1, hg, hc, hlen]
              have hnorm : normalizeV1 i s =
                  { id := jsIdOr s.id ("segment-" ++ toString i),
                    name := jsStrOr (jsStrOrOpt s.name (lookupTagOpt "name" s.tags))
                      "Unnamed Road",
                    type := jsStrOr (jsStrOrOpt s.type (lookupTagOpt "highway" s.tags))
                      "unclassified",
                    speedLimit := v,
                    geometry := coords,
                    properties := s.properties.getD [],
                    tags := s.tags.getD [] } := by
                simp [normalizeV1, rawNumValue, hsp, hg, hc]
              simp [loadV1Aux, hg, hsp, hc, hlen, List.filterMap_cons, hacc, hnorm, ih]
            · have hacc : acceptedV1 s = false := by
                simp [acceptedV1, normPointCountV1, hg, hc, hlen]
              simp [loadV1Aux, hg, hsp, hc, hlen, List.filterMap_cons, hacc, ih]
        | nan =>
          have hacc : acceptedV1 s = false := by
            simp [acceptedV1, hasValidSpeedV1, hsp]
          simp [loadV1Aux, hg, hsp, List.filterMap_cons, hacc, ih]
        | nonNumber str =>
          have hacc : acceptedV1 s = false := by
            simp [acceptedV1, hasValidSpeedV1, hsp]
          simp [loadV1Aux, hg, hsp, List.filterMap_cons, hacc, ih]
        | absent =>
          have hacc : acceptedV1 s = false := by
            simp [acceptedV1, hasValidSpeedV1, hsp]
          simp [loadV1Aux, hg, hsp, List.filterMap_cons, hacc, ih]

theorem loadBundledDataV1_eq (raws : List (Option RawRecord)) :
    loadBundledDataV1 raws = (List.enumFrom 0 raws).filterMap
      (fun p => p.2.bind fun s =>
        if acceptedV1 s then some (normalizeV1 p.1 s) else none) := by
  rw [loadBundledDataV1]
  by_cases h : raws.length = 0
  · rw [List.length_eq_zero.mp h]; rfl
  · simp [h, loadV1Aux_eq_filterMap]

theorem loadV2Aux_eq (raws : List (Option RawRecord)) :
    ∀ i, loadV2Aux i raws =
      ((List.enumFrom i raws).filterMap
        (fun p => p.2.bind fun s =>
          if acceptedV2 s then some (normalizeV2 p.1 (overwriteSpeed s)) else none),
       raws.map (Option.map overwriteSpeed)) := by
  induction raws with
  | nil => intro i; rfl
  | cons o rest ih =>
    intro i
    cases o with
    | none => simp [loadV2Aux, List.enumFrom, List.filterMap_cons, ih]
    | some s =>
      rw [List.enumFrom]
      have hgeom : (overwriteSpeed s).geometry = s.geometry := rfl
      by_cases hvg : hasValidGeometryV2 s.geometry
      · have hlen2 : (normalizeV2 i (overwriteSpeed s)).geometry = coordsV2 s.geometry := rfl
        by_cases hlen : 2 ≤ (coordsV2 s.geometry).length
        · have hacc : acceptedV2 s = true := by simp [acceptedV2, hvg, hlen]
          simp [loadV2Aux, hgeom, hvg, hlen2, hlen, List.filterMap_cons, hacc, ih]
        · have hacc : acceptedV2 s = false := by simp [acceptedV2, hlen]
          simp [loadV2Aux, hgeom, hvg, hlen2, hlen, List.filterMap_cons, hacc, ih]
      · have hacc : acceptedV2 s = false := by simp [acceptedV2, hvg]
        simp [loadV2Aux, hgeom, hvg, List.filterMap_cons, hacc, ih]

theorem loadBundledDataV2_eq (raws : List (Option RawRecord)) :
    loadBundledDataV2 raws =
      ((List.enumFrom 0 raws).filterMap
        (fun p => p.2.bind fun s =>
          if acceptedV2 s then some (normalizeV2 p.1 (overwriteSpeed s)) else none),
       raws.map (Option.map overwriteSpeed)) := by
  rw [loadBundledDataV2]
  by_cases h : raws.length = 0
  · rw [List.length_eq_zero.mp h]; rfl
  · rw [loadV2Aux_eq]
    simp only [h, if_false]
    by_cases h2 : ((List.enumFrom 0 raws).filterMap
        (fun p => p.2.bind fun s =>
          if acceptedV2 s then some (normalizeV2 p.1 (overwriteSpeed s)) else none)).length = 0
    · rw [List.length_eq_zero] at h2
      simp [h2]
    · simp [h2]

/-- Claim C4: a record is accepted into the store iff it has at least
two coordinate points after normalizing its geometry shape and a
resolved numeric speed limit; all other records are skipped without
aborting the load.  Both loaders are exactly the filter-map of their
acceptance predicate over the indexed input; V1's acceptance is a
numeric `speedLimit` field plus two normalized points, V2's is a
geometry in one of the two accepted shapes with two normalized points
(its tag-derived speed resolution is total, so the speed conjunct is
always satisfied). -/
theorem claim_C4_acceptance (raws : List (Option RawRecord)) :
    (loadBundledDataV1 raws = (List.enumFrom 0 raws).filterMap
      (fun p => p.2.bind fun s =>
        if acceptedV1 s then some (normalizeV1 p.1 s) else none)) ∧
    ((loadBundledDataV2 raws).1 = (List.enumFrom 0 raws).filterMap
      (fun p => p.2.bind fun s =>
        if acceptedV2 s then some (normalizeV2 p.1 (overwriteSpeed s)) else none)) ∧
    (∀ s : RawRecord, acceptedV1 s = true ↔
      (∃ v, s.speedLimit = RawSpeed.num v) ∧ 2 ≤ normPointCountV1 s) ∧
    (∀ s : RawRecord, acceptedV2 s = true ↔
      hasValidGeometryV2 s.geometry = true ∧ 2 ≤ (coordsV2 s.geometry).length) := by
  refine ⟨loadBundledDataV1_eq raws, by rw [loadBundledDataV2_eq], ?_, ?_⟩
  · intro s
    rw [acceptedV1, Bool.and_eq_true, decide_eq_true_eq]
    constructor
    · rintro ⟨h1, h2⟩
      refine ⟨?_, h2⟩
      cases hsp : s.speedLimit with
      | num v => exact ⟨v, rfl⟩
      | nan => rw [hasValidSpeedV1, hsp] at h1; cases h1
      | nonNumber str => rw [hasValidSpeedV1, hsp] at h1; cases h1
      | absent => rw [hasValidSpeedV1, hsp] at h1; cases h1
    · rintro ⟨⟨v, hv⟩, h2⟩
      exact ⟨by rw [hasValidSpeedV1, hv], h2⟩
  · intro s
    rw [acceptedV2, Bool.and_eq_true, decide_eq_true_eq]

/-- Claim C5: after initialization from a fresh state the store is
never empty — when the loader accepts zero records, the store is
exactly the built-in default data; otherwise it is the loaded data. -/
theorem claim_C5_never_empty (raws : List (Option RawRecord)) :
    (initializeV1 initialState raws).1.segments ≠ [] ∧
    (initializeV2 initialState raws).1.segments ≠ [] ∧
    ((initializeV1 initialState raws).1.segments =
      if loadBundledDataV1 raws = [] then createDefaultDataV1
      else loadBundledDataV1 raws) ∧
    ((initializeV2 initialState raws).1.segments =
      if (loadBundledDataV2 raws).1 = [] then createDefaultDataV2
      else (loadBundledDataV2 raws).1) := by
  have h1 : (initializeV1 initialState raws).1.segments =
      if loadBundledDataV1 raws = [] then createDefaultDataV1
      else loadBundledDataV1 raws := by
    rw [initializeV1]
    by_cases hb : loadBundledDataV1 raws = []
    · simp [initialState, hb]
    · have hp : 0 < (loadBundledDataV1 raws).length := List.length_pos.mpr hb
      simp [initialState, hb, hp]
  have h2 : (initializeV2 initialState raws).1.segments =
      if (loadBundledDataV2 raws).1 = [] then createDefaultDataV2
      else (loadBundledDataV2 raws).1 := by
    rw [initializeV2]
    by_cases hb : (loadBundledDataV2 raws).1 = []
    · simp [initialState, hb]
    · have hp : 0 < (loadBundledDataV2 raws).1.length := List.length_pos.mpr hb
      simp [initialState, hb, hp]
  refine ⟨?_, ?_, h1, h2⟩
  · rw [h1]
    by_cases hb : loadBundledDataV1 raws = [] <;> simp [hb, createDefaultDataV1]
  · rw [h2]
    by_cases hb : (loadBundledDataV2 raws).1 = [] <;> simp [hb, createDefaultDataV2]

/-- Claim C7: initialization is idempotent — any call leaves the flag
set, and every later call returns the state unchanged with result
`true`, in both revisions. -/
theorem claim_C7_initialize_idempotent (st : ServiceState)
    (raws raws2 : List (Option RawRecord)) :
    (initializeV1 st raws).1.isInitialized = true ∧
    (initializeV2 st raws).1.isInitialized = true ∧
    initializeV1 (initializeV1 st raws).1 raws2 = ((initializeV1 st raws).1, true) ∧
    initializeV2 (initializeV2 st raws).1 raws2 = ((initializeV2 st raws).1, true) := by
  have h1 : (initializeV1 st raws).1.isInitialized = true := by
    rw [initializeV1]
    cases hst : st.isInitialized
    · simp only [hst, Bool.false_eq_true, if_false]
      split_ifs <;> rfl
    · simp [hst]
  have h2 : (initializeV2 st raws).1.isInitialized = true := by
    rw [initializeV2]
    cases hst : st.isInitialized
    · simp only [hst, Bool.false_eq_true, if_false]
      split_ifs <;> rfl
    · simp [hst]
  refine ⟨h1, h2, ?_, ?_⟩
  · rw [initializeV1, if_pos h1]
  · rw [initializeV2, if_pos h2]

theorem jsIdOr_of_truthy (v : Option (String ⊕ Int)) (d : String)
    (h : idTruthy v = true) : v = some (jsIdOr v d) := by
  cases v with
  | none => simp [idTruthy] at h
  | some x =>
    cases x with
    | inl s =>
      have hs : s ≠ "" := by simpa [idTruthy] using h
      simp [jsIdOr, hs]
    | inr n =>
      have hn : n ≠ 0 := by simpa [idTruthy] using h
      simp [jsIdOr, hn]

theorem loadV1Aux_cons_good (i : Nat) (s : RawRecord)
    (rest : List (Option RawRecord)) (hacc : acceptedV1 s = true) :
    loadV1Aux i (some s :: rest) = normalizeV1 i s :: loadV1Aux (i + 1) rest := by
  rw [loadV1Aux_eq_filterMap, List.enumFrom, List.filterMap_cons]
  simp [hacc, loadV1Aux_eq_filterMap]

theorem loadV2Aux_fst_cons_good (i : Nat) (s : RawRecord)
    (rest : List (Option RawRecord)) (hacc : acceptedV2 s = true) :
    (loadV2Aux i (some s :: rest)).1 =
      normalizeV2 i (overwriteSpeed s) :: (loadV2Aux (i + 1) rest).1 := by
  rw [loadV2Aux_eq, loadV2Aux_eq, List.enumFrom, List.filterMap_cons]
  simp [hacc]

/-- Decomposition of `goodRecord`. -/
theorem goodRecord_spec (s : RawRecord) (h : goodRecord s = true) :
    idTruthy s.id = true ∧
    (∃ n, s.name = some n ∧ n ≠ "") ∧
    (∃ v, s.speedLimit = RawSpeed.num v) ∧
    (∃ cs, s.geometry = some (RawGeometry.arr cs) ∧ 2 ≤ cs.length) := by
  rw [goodRecord, Bool.and_eq_true, Bool.and_eq_true, Bool.and_eq_true] at h
  obtain ⟨⟨⟨hid, hname⟩, hsp⟩, hgeom⟩ := h
  refine ⟨hid, ?_, ?_, ?_⟩
  · cases hn : s.name with
    | none => rw [hn] at hname; cases hname
    | some n =>
      rw [hn] at hname
      exact ⟨n, rfl, by simpa using hname⟩
  · cases hv : s.speedLimit with
    | num v => exact ⟨v, rfl⟩
    | nan => rw [hasValidSpeedV1, hv] at hsp; cases hsp
    | nonNumber str => rw [hasValidSpeedV1, hv] at hsp; cases hsp
    | absent => rw [hasValidSpeedV1, hv] at hsp; cases hsp
  · cases hg : s.geometry with
    | none => rw [hg] at hgeom; cases hgeom
    | some g =>
      cases g with
      | arr cs =>
        rw [hg] at hgeom
        exact ⟨cs, rfl, by simpa using hgeom⟩
      | obj t cs => rw [hg] at hgeom; cases hgeom

theorem goodRecord_acceptedV1 (s : RawRecord) (h : goodRecord s = true) :
    acceptedV1 s = true := by
  obtain ⟨_, _, ⟨v, hv⟩, ⟨cs, hg, hlen⟩⟩ := goodRecord_spec s h
  simp [acceptedV1, hasValidSpeedV1, hv, normPointCountV1, hg, coordsV1, hlen]

theorem goodRecord_acceptedV2 (s : RawRecord) (h : goodRecord s = true) :
    acceptedV2 s = true := by
  obtain ⟨_, _, _, ⟨cs, hg, hlen⟩⟩ := goodRecord_spec s h
  simp [acceptedV2, hasValidGeometryV2, hg, coordsV2, hlen]

theorem goodRecord_roundTripV1 (i : Nat) (s : RawRecord)
    (h : goodRecord s = true) : roundTripV1 s (normalizeV1 i s) := by
  obtain ⟨hid, ⟨n, hn, hne⟩, ⟨v, hv⟩, ⟨cs, hg, _⟩⟩ := goodRecord_spec s h
  refine ⟨jsIdOr_of_truthy s.id _ hid, ?_, ?_, ?_⟩
  · rw [normalizeV1]
    simp [jsStrOrOpt, jsStrOr, hn, hne]
  · rw [normalizeV1]
    simp [rawNumValue, hv]
  · rw [normalizeV1]
    simp [hg, coordsV1]

theorem goodRecord_roundTripV2 (i : Nat) (s : RawRecord)
    (h : goodRecord s = true) : roundTripV2 s (normalizeV2 i (overwriteSpeed s)) := by
  obtain ⟨hid, ⟨n, hn, hne⟩, _, ⟨cs, hg, _⟩⟩ := goodRecord_spec s h
  have hid2 : (overwriteSpeed s).id = s.id := rfl
  refine ⟨?_, ?_, ?_, ?_⟩
  · rw [normalizeV2, hid2]
    exact jsIdOr_of_truthy s.id _ hid
  · rw [normalizeV2]
    show s.name = some (jsStrOr (overwriteSpeed s).name _)
    have : (overwriteSpeed s).name = s.name := rfl
    rw [this, hn]
    simp [jsStrOr, hne]
  · rw [normalizeV2]
    show (jsNumOr (overwriteSpeed s).speedLimit 10) = _
    have : (overwriteSpeed s).speedLimit = RawSpeed.num (parseSpeedLimit s.tags : ℚ) := rfl
    rw [this, jsNumOr]
  · rw [normalizeV2]
    show s.geometry = some (RawGeometry.arr (coordsV2 (overwriteSpeed s).geometry))
    have : (overwriteSpeed s).geometry = s.geometry := rfl
    rw [this, hg, coordsV2]

theorem forall2_loadV1Aux (raws : List RawRecord)
    (h : ∀ s ∈ raws, goodRecord s = true) :
    ∀ i, List.Forall₂ roundTripV1 raws (loadV1Aux i (raws.map some)) := by
  induction raws with
  | nil => intro i; exact List.Forall₂.nil
  | cons s rest ih =>
    intro i
    have hs := h s (List.mem_cons_self _ _)
    rw [List.map_cons, loadV1Aux_cons_good i s _ (goodRecord_acceptedV1 s hs)]
    exact List.Forall₂.cons (goodRecord_roundTripV1 i s hs)
      (ih (fun t ht => h t (List.mem_cons_of_mem _ ht)) (i + 1))

theorem forall2_loadV2Aux (raws : List RawRecord)
    (h : ∀ s ∈ raws, goodRecord s = true) :
    ∀ i, List.Forall₂ roundTripV2 raws (loadV2Aux i (raws.map some)).1 := by
  induction raws with
  | nil => intro i; exact List.Forall₂.nil
  | cons s rest ih =>
    intro i
    have hs := h s (List.mem_cons_self _ _)
    rw [List.map_cons, loadV2Aux_fst_cons_good i s _ (goodRecord_acceptedV2 s hs)]
    exact List.Forall₂.cons (goodRecord_roundTripV2 i s hs)
      (ih (fun t ht => h t (List.mem_cons_of_mem _ ht)) (i + 1))

/-- Counterexample to C3 as stated: the second revision's loader does
not round-trip `speedLimit`.  Loading the single fully valid record
`recCexC3` (whose `speedLimit` field is 80 and whose tags carry no
maxspeed) stores a segment with `speedLimit = 10`. -/
theorem claim_C3_counterexample :
    ((loadBundledDataV2 [some recCexC3]).1.map SpeedLimitSegment.speedLimit = [10]) ∧
    recCexC3.speedLimit = RawSpeed.num 80 ∧ (10 : ℚ) ≠ 80 := by
  refine ⟨?_, rfl, by norm_num⟩
  rw [loadBundledDataV2_eq]
  simp only [List.enumFrom, List.filterMap_cons, List.filterMap_nil, Option.some_bind]
  have hacc : acceptedV2 recCexC3 = true := by
    simp [acceptedV2, hasValidGeometryV2, coordsV2, recCexC3]
  rw [if_pos hacc]
  simp [normalizeV2, overwriteSpeed, jsNumOr, parseSpeedLimit, lookupTagOpt,
    jsStrOrOpt, recCexC3]

/-- Claim C3 as amended: loading N fully valid records yields exactly N
segments in both revisions, and `id`, `name` and `geometry` round-trip
unchanged.  `speedLimit` round-trips in the first revision only; the
second revision re-resolves it from the record's tags (`maxspeed` /
`maxspeed:forward`, default 10, with a parsed 0 coerced to 10). -/
theorem claim_C3_amended (raws : List RawRecord)
    (h : ∀ s ∈ raws, goodRecord s = true) :
    (loadBundledDataV1 (raws.map some)).length = raws.length ∧
    (loadBundledDataV2 (raws.map some)).1.length = raws.length ∧
    List.Forall₂ roundTripV1 raws (loadBundledDataV1 (raws.map some)) ∧
    List.Forall₂ roundTripV2 raws ((loadBundledDataV2 (raws.map some)).1) := by
  have hv1 : loadBundledDataV1 (raws.map some) = loadV1Aux 0 (raws.map some) := by
    rw [loadBundledDataV1_eq, loadV1Aux_eq_filterMap]
  have hv2 : (loadBundledDataV2 (raws.map some)).1 = (loadV2Aux 0 (raws.map some)).1 := by
    rw [loadBundledDataV2_eq, loadV2Aux_eq]
  have hf1 : List.Forall₂ roundTripV1 raws (loadBundledDataV1 (raws.map some)) := by
    rw [hv1]; exact forall2_loadV1Aux raws h 0
  have hf2 : List.Forall₂ roundTripV2 raws ((loadBundledDataV2 (raws.map some)).1) := by
    rw [hv2]; exact forall2_loadV2Aux raws h 0
  exact ⟨hf1.length_eq.symm, hf2.length_eq.symm, hf1, hf2⟩

/-- Witness for the amended C3 at a concrete one-record dataset. -/
theorem claim_C3_amended_witness :
    (loadBundledDataV1 [some recWitnessC3]).length = 1 ∧
    (loadBundledDataV2 [some recWitnessC3]).1.length = 1 ∧
    List.Forall₂ roundTripV1 [recWitnessC3] (loadBundledDataV1 [some recWitnessC3]) ∧
    List.Forall₂ roundTripV2 [recWitnessC3] ((loadBundledDataV2 [some recWitnessC3]).1) :=
  claim_C3_amended [recWitnessC3] (by
    intro s hs
    rw [List.mem_singleton.mp hs]
    decide)

theorem snd_mem_of_mem_enumFrom {α : Type} {x : α} {j : Nat} {l : List α} :
    ∀ {i : Nat}, (j, x) ∈ List.enumFrom i l → x ∈ l := by
  induction l with
  | nil => intro i h; simp [List.enumFrom] at h
  | cons a l ih =>
    intro i h
    rw [List.enumFrom] at h
    rcases List.mem_cons.mp h with heq | h2
    · have hx : x = a := (Prod.mk.injEq _ _ _ _).mp heq |>.2
      rw [hx]
      exact List.mem_cons_self _ _
    · exact List.mem_cons_of_mem _ (ih h2)

/-- Counterexample to C6 as stated: the first revision's loader accepts
any non-NaN numeric `speedLimit`, including negative ones.  Loading
`recCexC6` (`speedLimit = -5`) stores a segment whose `speedLimit` is
`-5`, which is not positive. -/
theorem claim_C6_counterexample :
    ((loadBundledDataV1 [some recCexC6]).map SpeedLimitSegment.speedLimit = [-5]) ∧
    ¬ (0 : ℚ) < -5 := by
  refine ⟨?_, by norm_num⟩
  rw [loadBundledDataV1_eq]
  simp only [List.enumFrom, List.filterMap_cons, List.filterMap_nil, Option.some_bind]
  have hacc : acceptedV1 recCexC6 = true := by
    simp [acceptedV1, hasValidSpeedV1, normPointCountV1, coordsV1, recCexC6]
  rw [if_pos hacc]
  simp [normalizeV1, rawNumValue, recCexC6]

/-- Claim C6 as amended: every stored segment's speed limit is present
and numeric.  In the second revision it is moreover always positive
(the tag-derived value, with 0 coerced to the 10 km/h default); in the
first revision it is exactly the numeric `speedLimit` field of some
input record, which may be zero or negative. -/
theorem claim_C6_amended (raws : List (Option RawRecord)) :
    (∀ seg ∈ (loadBundledDataV2 raws).1, 0 < seg.speedLimit) ∧
    (∀ seg ∈ loadBundledDataV1 raws, ∃ s : RawRecord, some s ∈ raws ∧
      s.speedLimit = RawSpeed.num seg.speedLimit) := by
  constructor
  · intro seg hmem
    rw [loadBundledDataV2_eq] at hmem
    rcases List.mem_filterMap.mp hmem with ⟨⟨j, o⟩, hp, hpe⟩
    cases o with
    | none => simp at hpe
    | some s =>
      rw [Option.some_bind] at hpe
      by_cases hacc : acceptedV2 s = true
      · rw [if_pos hacc] at hpe
        have hseg := Option.some.inj hpe
        rw [← hseg]
        show 0 < jsNumOr (overwriteSpeed s).speedLimit 10
        have hov : (overwriteSpeed s).speedLimit =
            RawSpeed.num (parseSpeedLimit s.tags : ℚ) := rfl
        rw [hov, jsNumOr]
        by_cases hz : (parseSpeedLimit s.tags : ℚ) = 0
        · rw [if_pos hz]; norm_num
        · rw [if_neg hz]
          have hnn : (0 : ℚ) ≤ (parseSpeedLimit s.tags : ℚ) := by positivity
          exact lt_of_le_of_ne hnn (Ne.symm hz)
      · rw [if_neg hacc] at hpe
        cases hpe
  · intro seg hmem
    rw [loadBundledDataV1_eq] at hmem
    rcases List.mem_filterMap.mp hmem with ⟨⟨j, o⟩, hp, hpe⟩
    cases o with
    | none => simp at hpe
    | some s =>
      rw [Option.some_bind] at hpe
      by_cases hacc : acceptedV1 s = true
      · rw [if_pos hacc] at hpe
        have hseg := Option.some.inj hpe
        refine ⟨s, snd_mem_of_mem_enumFrom hp, ?_⟩
        rw [acceptedV1, Bool.and_eq_true] at hacc
        cases hv : s.speedLimit with
        | num v =>
          rw [← hseg]
          have he : (normalizeV1 (j, some s).1 s).speedLimit =
              rawNumValue s.speedLimit := rfl
          rw [he, hv]
          rfl
        | nan => rw [hasValidSpeedV1, hv] at hacc; simp at hacc
        | nonNumber str => rw [hasValidSpeedV1, hv] at hacc; simp at hacc
        | absent => rw [hasValidSpeedV1, hv] at hacc; simp at hacc
      · rw [if_neg hacc] at hpe
        cases hpe

/-- Witness for the amended C6: the segment stored by the V2 loader for
`recWitnessC6` has a positive speed limit. -/
theorem claim_C6_amended_witness :
    0 < (normalizeV2 0 (overwriteSpeed recWitnessC6)).speedLimit :=
  (claim_C6_amended [some recWitnessC6]).1 _ (by
    rw [loadBundledDataV2_eq]
    simp only [List.enumFrom, List.filterMap_cons, List.filterMap_nil, Option.some_bind]
    have hacc : acceptedV2 recWitnessC6 = true := by
      simp [acceptedV2, hasValidGeometryV2, coordsV2, recWitnessC6]
    rw [if_pos hacc]
    exact List.mem_cons_self _ _)

/-- Counterexample to C10 as stated: the second revision's loader
writes the `speedLimit` field of its input record in place — after
loading, the raw array holds the record with `speedLimit = 10` instead
of its original 50. -/
theorem claim_C10_counterexample :
    (loadBundledDataV2 [some recCexC10]).2 =
      [some { recCexC10 with speedLimit := RawSpeed.num 10 }] ∧
    recCexC10.speedLimit = RawSpeed.num 50 ∧
    RawSpeed.num (10 : ℚ) ≠ RawSpeed.num (50 : ℚ) := by
  refine ⟨?_, rfl, by simp⟩
  rw [loadBundledDataV2_eq]
  simp [overwriteSpeed, parseSpeedLimit, lookupTagOpt, jsStrOrOpt, recCexC10]

/-- Claim C10 as amended: the first revision's loader performs no write
to its input records (its loop only reads them), and both revisions
build fresh normalized segment objects for the store; but the second
revision overwrites the `speedLimit` field of every present input
record in place with the tag-derived value, leaving every other field
unchanged. -/
theorem claim_C10_amended (raws : List (Option RawRecord)) (s : RawRecord) :
    (loadBundledDataV2 raws).2 = raws.map (Option.map overwriteSpeed) ∧
    (overwriteSpeed s).id = s.id ∧ (overwriteSpeed s).name = s.name ∧
    (overwriteSpeed s).type = s.type ∧ (overwriteSpeed s).geometry = s.geometry ∧
    (overwriteSpeed s).properties = s.properties ∧ (overwriteSpeed s).tags = s.tags ∧
    (overwriteSpeed s).speedLimit = RawSpeed.num (parseSpeedLimit s.tags : ℚ) :=
  ⟨by rw [loadBundledDataV2_eq], rfl, rfl, rfl, rfl, rfl, rfl, rfl⟩
